import Mathlib

/-!
Verification of the SynapseFlow neuron-model package

A shallow embedding of `synapseflow/neuron_models` (neuron_parameters.py,
base_model.py, lif_model.py, utils.py).  Python floats are modelled by `ℚ`;
the transcendental functions `np.exp` and `np.sqrt` (whose values never
matter for the properties below) are abstracted as function parameters;
fallible Python code (raised exceptions) is modelled with `Option`.
Mutable numpy arrays are modelled as functions `ℕ → ℚ` updated with
`Function.update`, and the simulation loop as a fold over the step index.
-/

namespace SynapseFlow

/-- Python `int()` applied to a rational: truncation toward zero. -/
def pyInt (q : ℚ) : ℤ := if 0 ≤ q then ⌊q⌋ else ⌈q⌉

/-! ### neuron_parameters.py -/

/-- The `NeuronParameters` dataclass.  The trailing fields `G_L`, `tau_m`,
`I_th` are the attributes computed by `__post_init__`; the `Optional`
Python fields are `Option ℚ`. -/
structure NeuronParameters where
  C_m : ℚ
  E_L : ℚ
  E_K : ℚ
  R_m : ℚ
  V_th : ℚ
  V_reset : ℚ
  V_peak : Option ℚ := none
  tau_vc : Option ℚ := none
  tau_vth : Option ℚ := none
  V_th_max : Option ℚ := none
  tau_G_ref : Option ℚ := none
  G_SRA : Option ℚ := none
  Delta_G_SRA : Option ℚ := none
  tau_SRA : Option ℚ := none
  V_max : Option ℚ := none
  Delta_th : Option ℚ := none
  a : Option ℚ := none
  b : Option ℚ := none
  G_L : ℚ
  tau_m : ℚ
  I_th : ℚ
  deriving DecidableEq

/-- Construction of a `NeuronParameters` (the dataclass `__init__` followed by
`__post_init__`).  `1.0 / R_m` raises `ZeroDivisionError` in Python when
`R_m = 0`, modelled by `none`; otherwise the derived fields are
`G_L = 1/R_m`, `tau_m = C_m/G_L`, `I_th = G_L*(V_th - E_L)`. -/
def mkNeuronParameters (C_m E_L E_K R_m V_th V_reset : ℚ)
    (V_peak tau_vc tau_vth V_th_max tau_G_ref G_SRA Delta_G_SRA tau_SRA
      V_max Delta_th a b : Option ℚ) : Option NeuronParameters :=
  if R_m = 0 then none
  else
    let G_L : ℚ := 1 / R_m
    some { C_m := C_m, E_L := E_L, E_K := E_K, R_m := R_m, V_th := V_th,
           V_reset := V_reset, V_peak := V_peak, tau_vc := tau_vc,
           tau_vth := tau_vth, V_th_max := V_th_max, tau_G_ref := tau_G_ref,
           G_SRA := G_SRA, Delta_G_SRA := Delta_G_SRA, tau_SRA := tau_SRA,
           V_max := V_max, Delta_th := Delta_th, a := a, b := b,
           G_L := G_L, tau_m := C_m / G_L, I_th := G_L * (V_th - E_L) }

/-- Value of an `Optional` parameter field.  Python would raise a `TypeError`
when the field is still `None`; every theorem below about code reading such a
field holds uniformly in the returned value, so the default is irrelevant. -/
def optQ (o : Option ℚ) : ℚ := o.getD 0

/-! ### utils.py : numpy primitives

`np.split(arr, sf, axis=0)` splits `arr` into `sf` contiguous sections of
equal length and raises a `ValueError` (here: `none`) when the length is not
evenly divisible by `sf`.  `np.mean(m, axis=0)` of a stacked list of rows
takes the mean across the rows at each position.  `np.var`/`np.mean` of a
vector are the population variance and the arithmetic mean. -/

/-- `np.split(arr, sf, axis=0)` on a one-dimensional array. -/
def npSplit (arr : List ℚ) (sf : ℕ) : Option (List (List ℚ)) :=
  if sf = 0 then none
  else if arr.length % sf ≠ 0 then none
  else some ((List.range sf).map fun k =>
    (arr.drop (k * (arr.length / sf))).take (arr.length / sf))

/-- `np.mean(rows, axis=0)`: the mean across rows at each position. -/
def npMeanAxis0 (rows : List (List ℚ)) : List ℚ :=
  match rows with
  | [] => []
  | r0 :: _ => (List.range r0.length).map fun j =>
      ((rows.map fun r => r.getD j 0).sum) / rows.length

/-- `np.mean` of a vector. -/
def npMean (xs : List ℚ) : ℚ := xs.sum / xs.length

/-- `np.var` of a vector (population variance, the numpy default). -/
def npVar (xs : List ℚ) : ℚ :=
  ((xs.map fun x => (x - npMean xs) ^ 2).sum) / xs.length

/-- `expand_bins(spike_array, new_dt, old_dt)` from utils.py:
`sf = int(new_dt/old_dt)`, then `np.split` into `sf` sections, stack, and
`np.mean(axis=0)`. -/
def expand_bins (spike_array : List ℚ) (new_dt old_dt : ℚ) :
    Option (List ℚ) :=
  let sf := (pyInt (new_dt / old_dt)).toNat
  match npSplit spike_array sf with
  | none => none
  | some rows => some (npMeanAxis0 rows)

/-- `find_fano_factor(time_range, spike_locations, dt)` from utils.py:
`num_steps_per_window = int(time_range/dt)`; returns `None` when the array
length is not evenly divisible by it, otherwise `np.split` into that many
windows, count spikes per window with `np.sum(axis=1)`, and return
`np.var(counts)/np.mean(counts)`. -/
def find_fano_factor (time_range : ℚ) (spike_locations : List ℚ) (dt : ℚ) :
    Option ℚ :=
  let num_steps_per_window := (pyInt (time_range / dt)).toNat
  if num_steps_per_window = 0 then none
  else if spike_locations.length % num_steps_per_window ≠ 0 then none
  else
    match npSplit spike_locations num_steps_per_window with
    | none => none
    | some spike_windows =>
      let spike_counts := spike_windows.map List.sum
      some (npVar spike_counts / npMean spike_counts)

/-! ### base_model.py and lif_model.py : the LIF model

`LIFModel` is a dataclass holding the parameters, the time grid `times`
(length `N`, modelled as a function `ℕ → ℚ`), the input current `I`, the
noise amplitude `noise_sigma` and the noise array `noises`, together with
the state initialised by `__post_init__` of the base class — the voltage
trace `V` (zeros with `V 0 = E_L`), `dt = times 1 - times 0`, and
`num_fire = 0` — and the `last_fire_time` attribute first created when a
spike occurs (`none` while unset; reading it in Python before any spike
raises `AttributeError`). -/

structure LIFModel where
  neuron_parameters : NeuronParameters
  times : ℕ → ℚ
  N : ℕ
  I : ℕ → ℚ
  noise_sigma : ℚ
  noises : ℕ → ℚ
  V : ℕ → ℚ
  dt : ℚ
  num_fire : ℕ
  last_fire_time : Option ℚ

namespace LIFModel

/-- Construction of a `LIFModel`: `BaseNeuronModel.__post_init__` zeroes the
voltage trace, sets `V[0] = E_L` and `dt = times[1] - times[0]`; then
`LIFModel.__post_init__` sets
`noises = np.random.normal(size) * noise_sigma * np.sqrt(dt)`.
The standard-normal draws and the (irrational) value of `np.sqrt(dt)` are
passed in as `draws` and `sqrtDt`. -/
def mk0 (p : NeuronParameters) (times : ℕ → ℚ) (N : ℕ) (I : ℕ → ℚ)
    (noise_sigma : ℚ) (draws : ℕ → ℚ) (sqrtDt : ℚ) : LIFModel :=
  { neuron_parameters := p, times := times, N := N, I := I,
    noise_sigma := noise_sigma,
    noises := fun i => draws i * noise_sigma * sqrtDt,
    V := Function.update (fun _ => 0) 0 p.E_L,
    dt := times 1 - times 0, num_fire := 0, last_fire_time := none }

/-- `LIFModel.dvdt(V_m, I_app) = ((E_L - V_m)/R_m + I_app)/C_m`. -/
def dvdt (p : NeuronParameters) (V_m I_app : ℚ) : ℚ :=
  ((p.E_L - V_m) / p.R_m + I_app) / p.C_m

/-- One iteration `i` of the loop in `LIFModel.simulate`:
`V_new = V[i-1] + dvdt(V[i-1], I[i-1])*dt`, add `noises[i]` (the
`isinstance` guard on `noises` always holds for a constructed model), and
if `V_new > V_th` reset to `V_reset`, bump `num_fire`, and record
`last_fire_time = times[i]`; finally store `V[i]`. -/
def stepBody (s : LIFModel) (i : ℕ) : LIFModel :=
  let V_new := s.V (i - 1) +
    dvdt s.neuron_parameters (s.V (i - 1)) (s.I (i - 1)) * s.dt
  let V_new := V_new + s.noises i
  if V_new > s.neuron_parameters.V_th then
    { s with V := Function.update s.V i s.neuron_parameters.V_reset,
             num_fire := s.num_fire + 1,
             last_fire_time := some (s.times i) }
  else
    { s with V := Function.update s.V i V_new }

/-- The first `k` iterations of the loop of `LIFModel.simulate`
(iteration counter `i` running `1, 2, …, k` in order). -/
def loop (s : LIFModel) : ℕ → LIFModel
  | 0 => s
  | k + 1 => stepBody (loop s k) (k + 1)

/-- `LIFModel.simulate()`: `for i in range(1, len(times))`. -/
def simulate (s : LIFModel) : LIFModel := loop s (s.N - 1)

end LIFModel

/-- Closed-form recurrence for the LIF voltage trace written by
`LIFModel.simulate`:  `lifVrec … 0 = E_L`, and step `i+1` proposes the Euler
update of step `i` plus the noise term `noises (i+1)`, resetting to
`V_reset` when the proposal exceeds `V_th`. -/
def lifVrec (p : NeuronParameters) (dt : ℚ) (I noises : ℕ → ℚ) : ℕ → ℚ
  | 0 => p.E_L
  | i + 1 =>
    let prop := lifVrec p dt I noises i +
      LIFModel.dvdt p (lifVrec p dt I noises i) (I i) * dt + noises (i + 1)
    if prop > p.V_th then p.V_reset else prop

/-- The proposed (pre-threshold) voltage at step `i ≥ 1` of the LIF loop:
`V[i-1] + dvdt(V[i-1], I[i-1])*dt + noises[i]`. -/
def lifProposed (p : NeuronParameters) (dt : ℚ) (I noises : ℕ → ℚ)
    (i : ℕ) : ℚ :=
  lifVrec p dt I noises (i - 1) +
    LIFModel.dvdt p (lifVrec p dt I noises (i - 1)) (I (i - 1)) * dt +
    noises i

/-! ### lif_model.py : the AELIF model

`AELIFModel` extends `LIFModel` (so it still carries the noise fields, which
its `simulate` does not read) and adds the adaptation current trace
`I_SRA_array` (zeros), `last_spike_time` (initialised to `-np.inf`, modelled
as `none`), the inter-spike-interval list `isi_array` (an entry is `none`
when it is `+inf`, i.e. the first spike measured against `-np.inf`), and the
binary `spike_array` (zeros).  `np.exp` is abstracted as the field
`rexp`. -/

structure AELIFModel where
  neuron_parameters : NeuronParameters
  times : ℕ → ℚ
  N : ℕ
  I : ℕ → ℚ
  noise_sigma : ℚ
  noises : ℕ → ℚ
  rexp : ℚ → ℚ
  V : ℕ → ℚ
  dt : ℚ
  num_fire : ℕ
  I_SRA_array : ℕ → ℚ
  last_spike_time : Option ℚ
  isi_array : List (Option ℚ)
  spike_array : ℕ → ℚ

namespace AELIFModel

/-- Construction of an `AELIFModel`: the `LIFModel` initialisation (voltage
zeros with `V[0] = E_L`, `dt`, noise array) followed by
`AELIFModel.__post_init__` (`I_SRA_array` zeros, `last_spike_time = -inf`,
`spike_array` zeros; `isi_array` defaults to `[]`). -/
def mk0 (p : NeuronParameters) (times : ℕ → ℚ) (N : ℕ) (I : ℕ → ℚ)
    (noise_sigma : ℚ) (draws : ℕ → ℚ) (sqrtDt : ℚ) (rexp : ℚ → ℚ) :
    AELIFModel :=
  { neuron_parameters := p, times := times, N := N, I := I,
    noise_sigma := noise_sigma,
    noises := fun i => draws i * noise_sigma * sqrtDt,
    rexp := rexp,
    V := Function.update (fun _ => 0) 0 p.E_L,
    dt := times 1 - times 0, num_fire := 0,
    I_SRA_array := fun _ => 0, last_spike_time := none,
    isi_array := [], spike_array := fun _ => 0 }

/-- `AELIFModel.dI_SRA_dt(V_m, I_SRA) = (a*(V_m - E_L) - I_SRA)/tau_SRA`. -/
def dI_SRA_dt (p : NeuronParameters) (V_m I_SRA : ℚ) : ℚ :=
  (optQ p.a * (V_m - p.E_L) - I_SRA) / optQ p.tau_SRA

/-- `AELIFModel.dvdt(V_m, I_app, I_SRA)`:
`(G_L*(E_L - V_m + Delta_th*exp((V_m - V_th)/Delta_th)) - I_SRA + I_app)/C_m`
with `np.exp` abstracted as `rexp`. -/
def dvdt (p : NeuronParameters) (rexp : ℚ → ℚ) (V_m I_app I_SRA : ℚ) : ℚ :=
  (p.G_L * (p.E_L - V_m + optQ p.Delta_th *
      rexp ((V_m - p.V_th) / optQ p.Delta_th)) - I_SRA + I_app) / p.C_m

/-- One iteration `i` of the loop in `AELIFModel.simulate`: Euler updates of
`V[i]` and `I_SRA_array[i]` from the `i-1` values; then, if `V[i] ≥ V_max`,
reset `V[i]` to `V_reset`, add `b` to `I_SRA_array[i]`, bump `num_fire`,
append `times[i] - last_spike_time` to `isi_array`, record
`last_spike_time`, and set `spike_array[i] = 1`. -/
def stepBody (s : AELIFModel) (i : ℕ) : AELIFModel :=
  let V_i := s.V (i - 1) + s.dt *
    dvdt s.neuron_parameters s.rexp (s.V (i - 1)) (s.I (i - 1))
      (s.I_SRA_array (i - 1))
  let ISRA_i := s.I_SRA_array (i - 1) + s.dt *
    dI_SRA_dt s.neuron_parameters (s.V (i - 1)) (s.I_SRA_array (i - 1))
  if V_i ≥ optQ s.neuron_parameters.V_max then
    { s with V := Function.update s.V i s.neuron_parameters.V_reset,
             I_SRA_array := Function.update s.I_SRA_array i
               (ISRA_i + optQ s.neuron_parameters.b),
             num_fire := s.num_fire + 1,
             isi_array := s.isi_array ++
               [s.last_spike_time.map (fun t => s.times i - t)],
             last_spike_time := some (s.times i),
             spike_array := Function.update s.spike_array i 1 }
  else
    { s with V := Function.update s.V i V_i,
             I_SRA_array := Function.update s.I_SRA_array i ISRA_i }

/-- The first `k` iterations of the loop of `AELIFModel.simulate`. -/
def loop (s : AELIFModel) : ℕ → AELIFModel
  | 0 => s
  | k + 1 => stepBody (loop s k) (k + 1)

/-- `AELIFModel.simulate()`: `for i in range(1, len(times))`. -/
def simulate (s : AELIFModel) : AELIFModel := loop s (s.N - 1)

end AELIFModel

/-- Closed-form recurrence for the pair (voltage, adaptation current)
written by `AELIFModel.simulate`. -/
def aelifRec (p : NeuronParameters) (rexp : ℚ → ℚ) (dt : ℚ)
    (I : ℕ → ℚ) : ℕ → ℚ × ℚ
  | 0 => (p.E_L, 0)
  | i + 1 =>
    let vw := aelifRec p rexp dt I i
    let ve := vw.1 + dt * AELIFModel.dvdt p rexp vw.1 (I i) vw.2
    let we := vw.2 + dt * AELIFModel.dI_SRA_dt p vw.1 vw.2
    if ve ≥ optQ p.V_max then (p.V_reset, we + optQ p.b) else (ve, we)

/-- The unclipped Euler update of the voltage at step `i ≥ 1` of the AELIF
loop. -/
def aelifVEuler (p : NeuronParameters) (rexp : ℚ → ℚ) (dt : ℚ)
    (I : ℕ → ℚ) (i : ℕ) : ℚ :=
  (aelifRec p rexp dt I (i - 1)).1 + dt *
    AELIFModel.dvdt p rexp (aelifRec p rexp dt I (i - 1)).1 (I (i - 1))
      (aelifRec p rexp dt I (i - 1)).2

/-- The Euler update of the adaptation current at step `i ≥ 1` of the AELIF
loop (before the `+ b` jump applied on a spike). -/
def aelifIEuler (p : NeuronParameters) (rexp : ℚ → ℚ) (dt : ℚ)
    (I : ℕ → ℚ) (i : ℕ) : ℚ :=
  (aelifRec p rexp dt I (i - 1)).2 + dt *
    AELIFModel.dI_SRA_dt p (aelifRec p rexp dt I (i - 1)).1
      (aelifRec p rexp dt I (i - 1)).2

theorem lifVrec_succ (p : NeuronParameters) (dt : ℚ) (I noises : ℕ → ℚ)
    (i : ℕ) :
    lifVrec p dt I noises (i + 1) =
      if lifProposed p dt I noises (i + 1) > p.V_th then p.V_reset
      else lifProposed p dt I noises (i + 1) := by
  simp [lifVrec, lifProposed]

namespace LIFModel

theorem stepBody_neuron_parameters (s : LIFModel) (i : ℕ) :
    (stepBody s i).neuron_parameters = s.neuron_parameters := by
  simp only [stepBody]; split <;> rfl

theorem stepBody_times (s : LIFModel) (i : ℕ) :
    (stepBody s i).times = s.times := by
  simp only [stepBody]; split <;> rfl

theorem stepBody_N (s : LIFModel) (i : ℕ) : (stepBody s i).N = s.N := by
  simp only [stepBody]; split <;> rfl

theorem stepBody_I (s : LIFModel) (i : ℕ) : (stepBody s i).I = s.I := by
  simp only [stepBody]; split <;> rfl

theorem stepBody_noise_sigma (s : LIFModel) (i : ℕ) :
    (stepBody s i).noise_sigma = s.noise_sigma := by
  simp only [stepBody]; split <;> rfl

theorem stepBody_noises (s : LIFModel) (i : ℕ) :
    (stepBody s i).noises = s.noises := by
  simp only [stepBody]; split <;> rfl

theorem stepBody_dt (s : LIFModel) (i : ℕ) : (stepBody s i).dt = s.dt := by
  simp only [stepBody]; split <;> rfl

theorem stepBody_V_ne (s : LIFModel) (i j : ℕ) (h : j ≠ i) :
    (stepBody s i).V j = s.V j := by
  simp only [stepBody]; split <;> simp [Function.update_noteq h]

theorem loop_neuron_parameters (s : LIFModel) (k : ℕ) :
    (loop s k).neuron_parameters = s.neuron_parameters := by
  induction k with
  | zero => rfl
  | succ k ih => rw [loop, stepBody_neuron_parameters, ih]

theorem loop_times (s : LIFModel) (k : ℕ) : (loop s k).times = s.times := by
  induction k with
  | zero => rfl
  | succ k ih => rw [loop, stepBody_times, ih]

theorem loop_N (s : LIFModel) (k : ℕ) : (loop s k).N = s.N := by
  induction k with
  | zero => rfl
  | succ k ih => rw [loop, stepBody_N, ih]

theorem loop_I (s : LIFModel) (k : ℕ) : (loop s k).I = s.I := by
  induction k with
  | zero => rfl
  | succ k ih => rw [loop, stepBody_I, ih]

theorem loop_noise_sigma (s : LIFModel) (k : ℕ) :
    (loop s k).noise_sigma = s.noise_sigma := by
  induction k with
  | zero => rfl
  | succ k ih => rw [loop, stepBody_noise_sigma, ih]

theorem loop_noises (s : LIFModel) (k : ℕ) :
    (loop s k).noises = s.noises := by
  induction k with
  | zero => rfl
  | succ k ih => rw [loop, stepBody_noises, ih]

theorem loop_dt (s : LIFModel) (k : ℕ) : (loop s k).dt = s.dt := by
  induction k with
  | zero => rfl
  | succ k ih => rw [loop, stepBody_dt, ih]

/-- Entries of the voltage trace not yet reached by the loop (index `0`, or
an index beyond the iteration counter) are untouched. -/
theorem loop_V_stable (s : LIFModel) (k j : ℕ) (h : j = 0 ∨ k < j) :
    (loop s k).V j = s.V j := by
  induction k with
  | zero => rfl
  | succ k ih =>
    have hne : j ≠ k + 1 := by
      rcases h with h | h
      · omega
      · omega
    rw [loop, stepBody_V_ne _ _ _ hne]
    exact ih (by omega)

/-- Invariant of the LIF loop: after `k` iterations every entry `j ≤ k` of
the voltage trace equals the closed-form recurrence `lifVrec`. -/
theorem loop_V_eq (s : LIFModel)
    (h0 : s.V 0 = s.neuron_parameters.E_L) (k : ℕ) :
    ∀ j ≤ k, (loop s k).V j =
      lifVrec s.neuron_parameters s.dt s.I s.noises j := by
  induction k with
  | zero =>
    intro j hj
    interval_cases j
    simpa [lifVrec] using h0
  | succ k ih =>
    intro j hj
    rcases Nat.lt_or_ge j (k + 1) with hlt | hge
    · rw [loop, stepBody_V_ne _ _ _ (by omega)]
      exact ih j (by omega)
    · have hj' : j = k + 1 := by omega
      subst hj'
      rw [loop]
      show (stepBody (loop s k) (k + 1)).V (k + 1) = _
      have hVk : (loop s k).V k =
          lifVrec s.neuron_parameters s.dt s.I s.noises k :=
        ih k le_rfl
      rw [lifVrec_succ]
      simp only [stepBody, loop_neuron_parameters, loop_I, loop_noises,
        loop_dt, Nat.add_sub_cancel, hVk]
      unfold lifProposed
      simp only [Nat.add_sub_cancel]
      split <;> simp [Function.update_same]

end LIFModel

/-- C1: for every LIFModel with a time grid of length `N ≥ 2`, `simulate`
sets, for each `i` from `1` to `N-1` in order, `V[i]` to
`V[i-1] + dt*((E_L - V[i-1])/R_m + I[i-1])/C_m` plus the noise term
`noises[i]` (indexed at the current step `i`), except that when this
proposed value is strictly greater than `V_th`, `V[i]` is set to `V_reset`,
`num_fire` is incremented by `1`, and the firing time `times[i]` is
recorded in `last_fire_time`. -/
theorem C1_lif_simulate_recurrence
    (p : NeuronParameters) (times : ℕ → ℚ) (N : ℕ) (I : ℕ → ℚ)
    (noise_sigma : ℚ) (draws : ℕ → ℚ) (sqrtDt : ℚ)
    (s0 : LIFModel) (nz : ℕ → ℚ) (dtq : ℚ)
    (_hN : 2 ≤ N)
    (hs0 : s0 = LIFModel.mk0 p times N I noise_sigma draws sqrtDt)
    (hnz : nz = fun i => draws i * noise_sigma * sqrtDt)
    (hdt : dtq = times 1 - times 0) :
    (∀ i, 1 ≤ i → i ≤ N - 1 →
      (LIFModel.simulate s0).V i = lifVrec p dtq I nz i) ∧
    (∀ i, 1 ≤ i → i ≤ N - 1 →
      (lifProposed p dtq I nz i > p.V_th →
        (LIFModel.loop s0 i).V i = p.V_reset ∧
        (LIFModel.loop s0 i).num_fire
          = (LIFModel.loop s0 (i - 1)).num_fire + 1 ∧
        (LIFModel.loop s0 i).last_fire_time = some (times i)) ∧
      (¬ lifProposed p dtq I nz i > p.V_th →
        (LIFModel.loop s0 i).V i = lifProposed p dtq I nz i ∧
        (LIFModel.loop s0 i).num_fire
          = (LIFModel.loop s0 (i - 1)).num_fire ∧
        (LIFModel.loop s0 i).last_fire_time
          = (LIFModel.loop s0 (i - 1)).last_fire_time)) := by
  subst hs0 hnz hdt
  set s0 := LIFModel.mk0 p times N I noise_sigma draws sqrtDt with hs0
  have h0 : s0.V 0 = s0.neuron_parameters.E_L := by
    simp [hs0, LIFModel.mk0]
  have hfields : s0.neuron_parameters = p ∧ s0.dt = times 1 - times 0 ∧
      s0.I = I ∧ s0.noises = (fun i => draws i * noise_sigma * sqrtDt) ∧
      s0.times = times ∧ s0.N = N := by
    refine ⟨rfl, rfl, rfl, rfl, rfl, rfl⟩
  obtain ⟨hp, hd, hI, hnz, ht, hNf⟩ := hfields
  constructor
  · intro i hi1 hi2
    have := LIFModel.loop_V_eq s0 h0 (N - 1) i hi2
    rw [LIFModel.simulate, hNf]
    rw [this, hp, hd, hI, hnz]
  · intro i hi1 hi2
    obtain ⟨k, rfl⟩ : ∃ k, i = k + 1 := ⟨i - 1, by omega⟩
    have hA : LIFModel.loop s0 (k + 1)
        = LIFModel.stepBody (LIFModel.loop s0 k) (k + 1) := rfl
    set A := LIFModel.loop s0 k with hAdef
    have hVk : A.V k = lifVrec p (times 1 - times 0) I
        (fun i => draws i * noise_sigma * sqrtDt) k := by
      have := LIFModel.loop_V_eq s0 h0 k k le_rfl
      rw [hAdef, this, hp, hd, hI, hnz]
    have hpA : A.neuron_parameters = p := by
      rw [hAdef, LIFModel.loop_neuron_parameters, hp]
    have hIA : A.I = I := by rw [hAdef, LIFModel.loop_I, hI]
    have hdA : A.dt = times 1 - times 0 := by
      rw [hAdef, LIFModel.loop_dt, hd]
    have hnzA : A.noises = (fun i => draws i * noise_sigma * sqrtDt) := by
      rw [hAdef, LIFModel.loop_noises, hnz]
    have htA : A.times = times := by rw [hAdef, LIFModel.loop_times, ht]
    have hProp : lifProposed p (times 1 - times 0) I
        (fun i => draws i * noise_sigma * sqrtDt) (k + 1)
        = A.V k + LIFModel.dvdt A.neuron_parameters (A.V k) (A.I k) * A.dt
            + A.noises (k + 1) := by
      rw [lifProposed, hVk, hpA, hIA, hdA, hnzA]
      simp
    have hkey : LIFModel.stepBody A (k + 1) =
        if lifProposed p (times 1 - times 0) I
            (fun i => draws i * noise_sigma * sqrtDt) (k + 1) > p.V_th then
          { A with V := Function.update A.V (k + 1)
                     A.neuron_parameters.V_reset,
                   num_fire := A.num_fire + 1,
                   last_fire_time := some (A.times (k + 1)) }
        else
          { A with V := Function.update A.V (k + 1)
                     (lifProposed p (times 1 - times 0) I
                       (fun i => draws i * noise_sigma * sqrtDt) (k + 1)) }
        := by
      rw [LIFModel.stepBody]
      simp only [Nat.add_sub_cancel, hProp, hpA]
    rw [hA, hkey, Nat.add_sub_cancel, ← hAdef]
    by_cases hf : lifProposed p (times 1 - times 0) I
        (fun i => draws i * noise_sigma * sqrtDt) (k + 1) > p.V_th
    · rw [if_pos hf]
      exact ⟨fun _ => ⟨by simp [Function.update_same, hpA],
               by simp, by simp [htA]⟩,
             fun hc => absurd hf hc⟩
    · rw [if_neg hf]
      exact ⟨fun hc => absurd hc hf,
             fun _ => ⟨by simp [Function.update_same], by simp, by simp⟩⟩

/-- Witness for C1 at a concrete model: parameters with
`E_L = 0, R_m = 1, C_m = 1, V_th = 1, V_reset = 0`, time grid `0, 1`,
zero current and zero noise. -/
theorem C1_lif_simulate_recurrence_witness :
    2 ≤ 2 ∧
    (LIFModel.simulate (LIFModel.mk0
        { C_m := 1, E_L := 0, E_K := 0, R_m := 1, V_th := 1, V_reset := 0,
          G_L := 1, tau_m := 1, I_th := 1 }
        (fun i => (i : ℚ)) 2 (fun _ => 0) 0 (fun _ => 0) 0)).V 1
      = lifVrec
        { C_m := 1, E_L := 0, E_K := 0, R_m := 1, V_th := 1, V_reset := 0,
          G_L := 1, tau_m := 1, I_th := 1 }
        ((fun i => (i : ℚ)) 1 - (fun i => (i : ℚ)) 0) (fun _ => 0)
        (fun i => (fun _ : ℕ => (0 : ℚ)) i * 0 * 0) 1 :=
  ⟨by norm_num,
   (C1_lif_simulate_recurrence
      { C_m := 1, E_L := 0, E_K := 0, R_m := 1, V_th := 1, V_reset := 0,
        G_L := 1, tau_m := 1, I_th := 1 }
      (fun i => (i : ℚ)) 2 (fun _ => 0) 0 (fun _ => 0) 0 _ _ _
      (by norm_num) rfl rfl rfl).1 1 (by norm_num) (by norm_num)⟩


/-- A concrete parameter set with `E_L = 0` above `V_th = -1` (derived
fields consistent: `G_L = 1/R_m`, `tau_m = C_m/G_L`,
`I_th = G_L*(V_th - E_L) = -1`), used in a closed instance below. -/
def pSuper : NeuronParameters :=
  { C_m := 1, E_L := 0, E_K := 0, R_m := 1, V_th := -1, V_reset := -1,
    G_L := 1, tau_m := 1, I_th := -1 }

/-- A concrete well-behaved parameter set (`E_L = 0 < V_th = 1`, derived
fields consistent, `I_th = 1`), used in closed instances below. -/
def pSub : NeuronParameters :=
  { C_m := 1, E_L := 0, E_K := 0, R_m := 1, V_th := 1, V_reset := 0,
    G_L := 1, tau_m := 1, I_th := 1 }

/-! ### base_model.py : the abstract contract, and Python method dispatch

`BaseNeuronModel.dVdt(step)` and `BaseNeuronModel.simulate()` both
`raise NotImplementedError`; the failure is modelled with `Except`.
Which class provides which method on an instance is decided by Python's
method-resolution order over the inheritance chain
`AELIFModel <: LIFModel <: BaseNeuronModel`, embedded below as an explicit
lookup table read off the three class bodies. -/

/-- base_model.py `BaseNeuronModel.dVdt(step)`: raises
`NotImplementedError`. -/
def BaseNeuronModel.dVdt (_step : ℕ) : Except String ℚ :=
  Except.error "NotImplementedError"

/-- base_model.py `BaseNeuronModel.simulate()`: raises
`NotImplementedError`. -/
def BaseNeuronModel.simulate : Except String Unit :=
  Except.error "NotImplementedError"

/-- The three classes of the neuron-model hierarchy. -/
inductive PyClass where
  | BaseNeuronModel
  | LIFModel
  | AELIFModel
  deriving DecidableEq

/-- The methods each class body defines (read off base_model.py and
lif_model.py). -/
def definesMethod (c : PyClass) (m : String) : Bool :=
  match c with
  | .BaseNeuronModel =>
      m == "__post_init__" || m == "fire_rate" || m == "dVdt"
        || m == "simulate"
  | .LIFModel => m == "__post_init__" || m == "dvdt" || m == "simulate"
  | .AELIFModel =>
      m == "__post_init__" || m == "dI_SRA_dt" || m == "dvdt"
        || m == "simulate"

/-- Python method-resolution order of each class. -/
def mro : PyClass → List PyClass
  | .BaseNeuronModel => [.BaseNeuronModel]
  | .LIFModel => [.LIFModel, .BaseNeuronModel]
  | .AELIFModel => [.AELIFModel, .LIFModel, .BaseNeuronModel]

/-- The class whose body provides method `m` when it is called on an
instance of class `c` (Python attribute lookup along the MRO). -/
def resolveMethod (c : PyClass) (m : String) : Option PyClass :=
  (mro c).find? (fun d => definesMethod d m)

/-- Modelled on the wording of the specification of `expand_bins` (for
comparison with the implementation): split the array into
`int(new_dt/old_dt)` equal-length contiguous segments and return the mean
of each segment, one averaged value per segment in original order. -/
def expandBinsClaimed (spike_array : List ℚ) (new_dt old_dt : ℚ) :
    Option (List ℚ) :=
  let sf := (pyInt (new_dt / old_dt)).toNat
  match npSplit spike_array sf with
  | none => none
  | some rows => some (rows.map npMean)

theorem aelifRec_succ (p : NeuronParameters) (rexp : ℚ → ℚ) (dt : ℚ)
    (I : ℕ → ℚ) (i : ℕ) :
    aelifRec p rexp dt I (i + 1) =
      if aelifVEuler p rexp dt I (i + 1) ≥ optQ p.V_max then
        (p.V_reset, aelifIEuler p rexp dt I (i + 1) + optQ p.b)
      else (aelifVEuler p rexp dt I (i + 1),
            aelifIEuler p rexp dt I (i + 1)) := by
  simp [aelifRec, aelifVEuler, aelifIEuler]

namespace AELIFModel

theorem ae_stepBody_neuron_parameters (s : AELIFModel) (i : ℕ) :
    (stepBody s i).neuron_parameters = s.neuron_parameters := by
  simp only [stepBody]; split <;> rfl

theorem ae_stepBody_times (s : AELIFModel) (i : ℕ) :
    (stepBody s i).times = s.times := by
  simp only [stepBody]; split <;> rfl

theorem ae_stepBody_N (s : AELIFModel) (i : ℕ) : (stepBody s i).N = s.N := by
  simp only [stepBody]; split <;> rfl

theorem ae_stepBody_I (s : AELIFModel) (i : ℕ) : (stepBody s i).I = s.I := by
  simp only [stepBody]; split <;> rfl

theorem ae_stepBody_noise_sigma (s : AELIFModel) (i : ℕ) :
    (stepBody s i).noise_sigma = s.noise_sigma := by
  simp only [stepBody]; split <;> rfl

theorem ae_stepBody_noises (s : AELIFModel) (i : ℕ) :
    (stepBody s i).noises = s.noises := by
  simp only [stepBody]; split <;> rfl

theorem stepBody_rexp (s : AELIFModel) (i : ℕ) :
    (stepBody s i).rexp = s.rexp := by
  simp only [stepBody]; split <;> rfl

theorem ae_stepBody_dt (s : AELIFModel) (i : ℕ) :
    (stepBody s i).dt = s.dt := by
  simp only [stepBody]; split <;> rfl

theorem ae_stepBody_V_ne (s : AELIFModel) (i j : ℕ) (h : j ≠ i) :
    (stepBody s i).V j = s.V j := by
  simp only [stepBody]; split <;> simp [Function.update_noteq h]

theorem stepBody_I_SRA_ne (s : AELIFModel) (i j : ℕ) (h : j ≠ i) :
    (stepBody s i).I_SRA_array j = s.I_SRA_array j := by
  simp only [stepBody]; split <;> simp [Function.update_noteq h]

theorem stepBody_spike_ne (s : AELIFModel) (i j : ℕ) (h : j ≠ i) :
    (stepBody s i).spike_array j = s.spike_array j := by
  simp only [stepBody]; split <;> simp [Function.update_noteq h]

/-- On every iteration the ISI list and the spike counter advance
together. -/
theorem stepBody_isi_num (s : AELIFModel) (i : ℕ) :
    (stepBody s i).isi_array.length + s.num_fire
      = (stepBody s i).num_fire + s.isi_array.length := by
  simp only [stepBody]; split <;> simp <;> omega

theorem ae_loop_neuron_parameters (s : AELIFModel) (k : ℕ) :
    (loop s k).neuron_parameters = s.neuron_parameters := by
  induction k with
  | zero => rfl
  | succ k ih => rw [loop, ae_stepBody_neuron_parameters, ih]

theorem ae_loop_times (s : AELIFModel) (k : ℕ) :
    (loop s k).times = s.times := by
  induction k with
  | zero => rfl
  | succ k ih => rw [loop, ae_stepBody_times, ih]

theorem ae_loop_N (s : AELIFModel) (k : ℕ) : (loop s k).N = s.N := by
  induction k with
  | zero => rfl
  | succ k ih => rw [loop, ae_stepBody_N, ih]

theorem ae_loop_I (s : AELIFModel) (k : ℕ) : (loop s k).I = s.I := by
  induction k with
  | zero => rfl
  | succ k ih => rw [loop, ae_stepBody_I, ih]

theorem ae_loop_noise_sigma (s : AELIFModel) (k : ℕ) :
    (loop s k).noise_sigma = s.noise_sigma := by
  induction k with
  | zero => rfl
  | succ k ih => rw [loop, ae_stepBody_noise_sigma, ih]

theorem ae_loop_noises (s : AELIFModel) (k : ℕ) :
    (loop s k).noises = s.noises := by
  induction k with
  | zero => rfl
  | succ k ih => rw [loop, ae_stepBody_noises, ih]

theorem loop_rexp (s : AELIFModel) (k : ℕ) : (loop s k).rexp = s.rexp := by
  induction k with
  | zero => rfl
  | succ k ih => rw [loop, stepBody_rexp, ih]

theorem ae_loop_dt (s : AELIFModel) (k : ℕ) : (loop s k).dt = s.dt := by
  induction k with
  | zero => rfl
  | succ k ih => rw [loop, ae_stepBody_dt, ih]

theorem ae_loop_V_stable (s : AELIFModel) (k j : ℕ) (h : j = 0 ∨ k < j) :
    (loop s k).V j = s.V j := by
  induction k with
  | zero => rfl
  | succ k ih =>
    have hne : j ≠ k + 1 := by omega
    rw [loop, ae_stepBody_V_ne _ _ _ hne]
    exact ih (by omega)

theorem loop_I_SRA_stable (s : AELIFModel) (k j : ℕ) (h : j = 0 ∨ k < j) :
    (loop s k).I_SRA_array j = s.I_SRA_array j := by
  induction k with
  | zero => rfl
  | succ k ih =>
    have hne : j ≠ k + 1 := by omega
    rw [loop, stepBody_I_SRA_ne _ _ _ hne]
    exact ih (by omega)

theorem loop_spike_stable (s : AELIFModel) (k j : ℕ) (h : j = 0 ∨ k < j) :
    (loop s k).spike_array j = s.spike_array j := by
  induction k with
  | zero => rfl
  | succ k ih =>
    have hne : j ≠ k + 1 := by omega
    rw [loop, stepBody_spike_ne _ _ _ hne]
    exact ih (by omega)

/-- The length of the ISI list and the spike counter advance together
through the whole loop. -/
theorem loop_isi_num (s : AELIFModel) (k : ℕ) :
    (loop s k).isi_array.length + s.num_fire
      = (loop s k).num_fire + s.isi_array.length := by
  induction k with
  | zero => simp only [loop]; omega
  | succ k ih =>
    have h := stepBody_isi_num (loop s k) (k + 1)
    rw [loop]
    omega

/-- Invariant of the AELIF loop: after `k` iterations, for every `j ≤ k`
the voltage and adaptation-current entries equal the closed-form recurrence
`aelifRec`, and for `1 ≤ j` the spike indicator is `1` exactly when the
unclipped Euler update reached `V_max`. -/
theorem loop_inv (s : AELIFModel)
    (h0V : s.V 0 = s.neuron_parameters.E_L)
    (h0I : s.I_SRA_array 0 = 0) (k : ℕ) :
    ∀ j ≤ k,
      (loop s k).V j
          = (aelifRec s.neuron_parameters s.rexp s.dt s.I j).1 ∧
      (loop s k).I_SRA_array j
          = (aelifRec s.neuron_parameters s.rexp s.dt s.I j).2 ∧
      (1 ≤ j → (loop s k).spike_array j =
        if aelifVEuler s.neuron_parameters s.rexp s.dt s.I j
            ≥ optQ s.neuron_parameters.V_max then 1
        else s.spike_array j) := by
  induction k with
  | zero =>
    intro j hj
    interval_cases j
    exact ⟨by simpa [aelifRec] using h0V, by simpa [aelifRec] using h0I,
           by omega⟩
  | succ k ih =>
    intro j hj
    rcases Nat.lt_or_ge j (k + 1) with hlt | hge
    · obtain ⟨hV, hI, hs⟩ := ih j (by omega)
      refine ⟨?_, ?_, ?_⟩
      · rw [loop, ae_stepBody_V_ne _ _ _ (by omega), hV]
      · rw [loop, stepBody_I_SRA_ne _ _ _ (by omega), hI]
      · intro h1
        rw [loop, stepBody_spike_ne _ _ _ (by omega)]
        exact hs h1
    · have hj' : j = k + 1 := by omega
      subst hj'
      obtain ⟨hVk, hIk, _⟩ := ih k le_rfl
      set A := loop s k with hA
      have hpA : A.neuron_parameters = s.neuron_parameters :=
        ae_loop_neuron_parameters s k
      have hIA : A.I = s.I := ae_loop_I s k
      have hdA : A.dt = s.dt := ae_loop_dt s k
      have hrA : A.rexp = s.rexp := loop_rexp s k
      have hkey : stepBody A (k + 1) =
          if aelifVEuler s.neuron_parameters s.rexp s.dt s.I (k + 1)
              ≥ optQ s.neuron_parameters.V_max then
            { A with V := Function.update A.V (k + 1)
                       A.neuron_parameters.V_reset,
                     I_SRA_array := Function.update A.I_SRA_array (k + 1)
                       (aelifIEuler s.neuron_parameters s.rexp s.dt s.I
                          (k + 1) + optQ A.neuron_parameters.b),
                     num_fire := A.num_fire + 1,
                     isi_array := A.isi_array ++
                       [A.last_spike_time.map (fun t => A.times (k + 1) - t)],
                     last_spike_time := some (A.times (k + 1)),
                     spike_array := Function.update A.spike_array (k + 1) 1 }
          else
            { A with V := Function.update A.V (k + 1)
                       (aelifVEuler s.neuron_parameters s.rexp s.dt s.I
                         (k + 1)),
                     I_SRA_array := Function.update A.I_SRA_array (k + 1)
                       (aelifIEuler s.neuron_parameters s.rexp s.dt s.I
                         (k + 1)) } := by
        rw [stepBody]
        simp only [Nat.add_sub_cancel, hVk, hIk, hpA, hIA, hdA, hrA]
        rw [aelifVEuler, aelifIEuler]
        simp only [Nat.add_sub_cancel]
      rw [loop, ← hA, hkey, aelifRec_succ]
      by_cases hf : aelifVEuler s.neuron_parameters s.rexp s.dt s.I (k + 1)
          ≥ optQ s.neuron_parameters.V_max
      · rw [if_pos hf, if_pos hf]
        exact ⟨by simp [Function.update_same, hpA],
               by simp [Function.update_same, hpA],
               fun _ => by simp [Function.update_same, if_pos hf]⟩
      · rw [if_neg hf, if_neg hf]
        exact ⟨by simp [Function.update_same],
               by simp [Function.update_same],
               fun _ => by
                 simp only [if_neg hf]
                 show A.spike_array (k + 1) = s.spike_array (k + 1)
                 exact loop_spike_stable s k (k + 1) (Or.inr (by omega))⟩

end AELIFModel

/-- C2: for every AELIFModel run of `simulate`, at each step `i`
(`1 ≤ i ≤ N-1`): `V[i]` is set to `V_reset` and `I_SRA_array[i]` gains `+b`
exactly when the unclipped Euler update of `V[i]` reaches or exceeds
`V_max`; `spike_array[i] = 1` at and only at those indices; and after
`simulate` completes on a freshly constructed model,
`len(isi_array) = num_fire`. -/
theorem C2_aelif_simulate_spikes
    (p : NeuronParameters) (times : ℕ → ℚ) (N : ℕ) (I : ℕ → ℚ)
    (noise_sigma : ℚ) (draws : ℕ → ℚ) (sqrtDt : ℚ) (rexp : ℚ → ℚ)
    (s0 : AELIFModel) (dtq : ℚ)
    (hs0 : s0 = AELIFModel.mk0 p times N I noise_sigma draws sqrtDt rexp)
    (hdt : dtq = times 1 - times 0) :
    (∀ i, 1 ≤ i → i ≤ N - 1 →
      (aelifVEuler p rexp dtq I i ≥ optQ p.V_max →
        (AELIFModel.simulate s0).V i = p.V_reset ∧
        (AELIFModel.simulate s0).I_SRA_array i
          = aelifIEuler p rexp dtq I i + optQ p.b ∧
        (AELIFModel.simulate s0).spike_array i = 1) ∧
      (¬ aelifVEuler p rexp dtq I i ≥ optQ p.V_max →
        (AELIFModel.simulate s0).V i = aelifVEuler p rexp dtq I i ∧
        (AELIFModel.simulate s0).I_SRA_array i
          = aelifIEuler p rexp dtq I i ∧
        (AELIFModel.simulate s0).spike_array i = 0)) ∧
    (AELIFModel.simulate s0).isi_array.length
      = (AELIFModel.simulate s0).num_fire := by
  subst hs0 hdt
  set s0 := AELIFModel.mk0 p times N I noise_sigma draws sqrtDt rexp
    with hs0
  have h0V : s0.V 0 = s0.neuron_parameters.E_L := by
    simp [hs0, AELIFModel.mk0]
  have h0I : s0.I_SRA_array 0 = 0 := rfl
  have hsim : AELIFModel.simulate s0 = AELIFModel.loop s0 (N - 1) := rfl
  constructor
  · intro i hi1 hi2
    obtain ⟨hV, hI, hspk⟩ := AELIFModel.loop_inv s0 h0V h0I (N - 1) i hi2
    have e1 : s0.neuron_parameters = p := rfl
    have e2 : s0.rexp = rexp := rfl
    have e3 : s0.dt = times 1 - times 0 := rfl
    have e4 : s0.I = I := rfl
    have e5 : ∀ j, s0.spike_array j = 0 := fun _ => rfl
    rw [e1, e2, e3, e4] at hV hI hspk
    rw [e5] at hspk
    obtain ⟨k, rfl⟩ : ∃ k, i = k + 1 := ⟨i - 1, by omega⟩
    have hrec := aelifRec_succ p rexp (times 1 - times 0) I k
    have hspk' := hspk (by omega)
    rw [hsim]
    by_cases hf : aelifVEuler p rexp (times 1 - times 0) I (k + 1)
        ≥ optQ p.V_max
    · refine ⟨fun _ => ⟨?_, ?_, ?_⟩, fun hc => absurd hf hc⟩
      · rw [hV, hrec, if_pos hf]
      · rw [hI, hrec, if_pos hf]
      · rw [hspk', if_pos hf]
    · refine ⟨fun hc => absurd hc hf, fun _ => ⟨?_, ?_, ?_⟩⟩
      · rw [hV, hrec, if_neg hf]
      · rw [hI, hrec, if_neg hf]
      · rw [hspk', if_neg hf]
  · have := AELIFModel.loop_isi_num s0 (N - 1)
    rw [hsim]
    have hn0 : s0.num_fire = 0 := rfl
    have hl0 : s0.isi_array.length = 0 := rfl
    omega

/-- Witness for C2 at a concrete model: adaptation parameters
`tau_SRA = 1, a = 0, b = 1, Delta_th = 1, V_max = 1`, time grid `0, 1`,
zero current, `rexp` the constant-zero function; step `1` does not spike. -/
theorem C2_aelif_simulate_spikes_witness :
    ((AELIFModel.simulate (AELIFModel.mk0
        { C_m := 1, E_L := 0, E_K := 0, R_m := 1, V_th := 0, V_reset := 0,
          tau_SRA := some 1, V_max := some 1, Delta_th := some 1,
          a := some 0, b := some 1, G_L := 1, tau_m := 1, I_th := 0 }
        (fun i => (i : ℚ)) 2 (fun _ => 0) 0 (fun _ => 0) 0
        (fun _ => 0))).V 1
      = aelifVEuler
        { C_m := 1, E_L := 0, E_K := 0, R_m := 1, V_th := 0, V_reset := 0,
          tau_SRA := some 1, V_max := some 1, Delta_th := some 1,
          a := some 0, b := some 1, G_L := 1, tau_m := 1, I_th := 0 }
        (fun _ => 0) 1 (fun _ => 0) 1) ∧
    (AELIFModel.simulate (AELIFModel.mk0
        { C_m := 1, E_L := 0, E_K := 0, R_m := 1, V_th := 0, V_reset := 0,
          tau_SRA := some 1, V_max := some 1, Delta_th := some 1,
          a := some 0, b := some 1, G_L := 1, tau_m := 1, I_th := 0 }
        (fun i => (i : ℚ)) 2 (fun _ => 0) 0 (fun _ => 0) 0
        (fun _ => 0))).isi_array.length
      = (AELIFModel.simulate (AELIFModel.mk0
        { C_m := 1, E_L := 0, E_K := 0, R_m := 1, V_th := 0, V_reset := 0,
          tau_SRA := some 1, V_max := some 1, Delta_th := some 1,
          a := some 0, b := some 1, G_L := 1, tau_m := 1, I_th := 0 }
        (fun i => (i : ℚ)) 2 (fun _ => 0) 0 (fun _ => 0) 0
        (fun _ => 0))).num_fire :=
  ⟨(((C2_aelif_simulate_spikes
      { C_m := 1, E_L := 0, E_K := 0, R_m := 1, V_th := 0, V_reset := 0,
        tau_SRA := some 1, V_max := some 1, Delta_th := some 1,
        a := some 0, b := some 1, G_L := 1, tau_m := 1, I_th := 0 }
      (fun i => (i : ℚ)) 2 (fun _ => 0) 0 (fun _ => 0) 0 (fun _ => 0) _ 1
      rfl (by norm_num)).1 1 (by norm_num) (by norm_num)).2
      (by norm_num [aelifVEuler, aelifRec, AELIFModel.dvdt,
        AELIFModel.dI_SRA_dt, optQ])).1,
   (C2_aelif_simulate_spikes
      { C_m := 1, E_L := 0, E_K := 0, R_m := 1, V_th := 0, V_reset := 0,
        tau_SRA := some 1, V_max := some 1, Delta_th := some 1,
        a := some 0, b := some 1, G_L := 1, tau_m := 1, I_th := 0 }
      (fun i => (i : ℚ)) 2 (fun _ => 0) 0 (fun _ => 0) 0 (fun _ => 0) _ 1
      rfl (by norm_num)).2⟩

/-- C10: `simulate` mutates only model-owned result state: for both models
the time grid, the input-current sequence, the noise array and the
referenced parameter set are unchanged, `V[0]` still equals `E_L`
afterwards, and for the AELIF model the index-0 entries of the
adaptation-current and spike arrays are also unchanged. -/
theorem C10_simulate_frame
    (p : NeuronParameters) (times : ℕ → ℚ) (N : ℕ) (I : ℕ → ℚ)
    (noise_sigma : ℚ) (draws : ℕ → ℚ) (sqrtDt : ℚ)
    (p2 : NeuronParameters) (times2 : ℕ → ℚ) (N2 : ℕ) (I2 : ℕ → ℚ)
    (noise_sigma2 : ℚ) (draws2 : ℕ → ℚ) (sqrtDt2 : ℚ) (rexp : ℚ → ℚ) :
    (LIFModel.simulate
        (LIFModel.mk0 p times N I noise_sigma draws sqrtDt)).times
      = times ∧
    (LIFModel.simulate
        (LIFModel.mk0 p times N I noise_sigma draws sqrtDt)).I = I ∧
    (LIFModel.simulate
        (LIFModel.mk0 p times N I noise_sigma draws sqrtDt)).noises
      = (fun i => draws i * noise_sigma * sqrtDt) ∧
    (LIFModel.simulate
        (LIFModel.mk0 p times N I noise_sigma draws sqrtDt)).neuron_parameters
      = p ∧
    (LIFModel.simulate
        (LIFModel.mk0 p times N I noise_sigma draws sqrtDt)).V 0 = p.E_L ∧
    (AELIFModel.simulate (AELIFModel.mk0 p2 times2 N2 I2 noise_sigma2
        draws2 sqrtDt2 rexp)).times = times2 ∧
    (AELIFModel.simulate (AELIFModel.mk0 p2 times2 N2 I2 noise_sigma2
        draws2 sqrtDt2 rexp)).I = I2 ∧
    (AELIFModel.simulate (AELIFModel.mk0 p2 times2 N2 I2 noise_sigma2
        draws2 sqrtDt2 rexp)).noises
      = (fun i => draws2 i * noise_sigma2 * sqrtDt2) ∧
    (AELIFModel.simulate (AELIFModel.mk0 p2 times2 N2 I2 noise_sigma2
        draws2 sqrtDt2 rexp)).neuron_parameters = p2 ∧
    (AELIFModel.simulate (AELIFModel.mk0 p2 times2 N2 I2 noise_sigma2
        draws2 sqrtDt2 rexp)).V 0 = p2.E_L ∧
    (AELIFModel.simulate (AELIFModel.mk0 p2 times2 N2 I2 noise_sigma2
        draws2 sqrtDt2 rexp)).I_SRA_array 0 = 0 ∧
    (AELIFModel.simulate (AELIFModel.mk0 p2 times2 N2 I2 noise_sigma2
        draws2 sqrtDt2 rexp)).spike_array 0 = 0 := by
  refine ⟨LIFModel.loop_times _ _, LIFModel.loop_I _ _,
    LIFModel.loop_noises _ _, LIFModel.loop_neuron_parameters _ _, ?_,
    AELIFModel.ae_loop_times _ _, AELIFModel.ae_loop_I _ _,
    AELIFModel.ae_loop_noises _ _, AELIFModel.ae_loop_neuron_parameters _ _,
    ?_, ?_, ?_⟩
  · rw [LIFModel.simulate, LIFModel.loop_V_stable _ _ _ (Or.inl rfl)]
    simp [LIFModel.mk0]
  · rw [AELIFModel.simulate, AELIFModel.ae_loop_V_stable _ _ _ (Or.inl rfl)]
    simp [AELIFModel.mk0]
  · rw [AELIFModel.simulate,
      AELIFModel.loop_I_SRA_stable _ _ _ (Or.inl rfl)]
    rfl
  · rw [AELIFModel.simulate,
      AELIFModel.loop_spike_stable _ _ _ (Or.inl rfl)]
    rfl

/-- C6: two LIF models built from the same parameter set, time grid and
current sequence with `noise_sigma = 0` produce identical voltage traces
and spike counts, whatever the random draws (and whatever value `np.sqrt`
takes): the noise array is all-zero when `noise_sigma = 0`. -/
theorem C6_lif_determinism_zero_noise
    (p : NeuronParameters) (times : ℕ → ℚ) (N : ℕ) (I : ℕ → ℚ)
    (draws1 : ℕ → ℚ) (sqrtDt1 : ℚ) (draws2 : ℕ → ℚ) (sqrtDt2 : ℚ) :
    (LIFModel.simulate (LIFModel.mk0 p times N I 0 draws1 sqrtDt1)).V
      = (LIFModel.simulate (LIFModel.mk0 p times N I 0 draws2 sqrtDt2)).V ∧
    (LIFModel.simulate (LIFModel.mk0 p times N I 0 draws1 sqrtDt1)).num_fire
      = (LIFModel.simulate
          (LIFModel.mk0 p times N I 0 draws2 sqrtDt2)).num_fire := by
  have hn : (fun i => draws1 i * (0 : ℚ) * sqrtDt1)
      = (fun i => draws2 i * (0 : ℚ) * sqrtDt2) := by
    funext i
    ring
  have h : LIFModel.mk0 p times N I 0 draws1 sqrtDt1
      = LIFModel.mk0 p times N I 0 draws2 sqrtDt2 := by
    simp only [LIFModel.mk0, hn]
  rw [h]
  exact ⟨rfl, rfl⟩

/-- One guarded Euler step of the LIF dynamics cannot cross the threshold
when the timestep satisfies `0 ≤ dt ≤ R_m*C_m`, the equilibrium voltage
`E_L + R_m*c` is below threshold, and the previous voltage is below
threshold. -/
theorem lif_euler_le (p : NeuronParameters) (dtq c V : ℚ)
    (hRm : 0 < p.R_m) (hCm : 0 < p.C_m) (hdt0 : 0 ≤ dtq)
    (hdtm : dtq ≤ p.R_m * p.C_m)
    (hVstar : p.E_L + p.R_m * c ≤ p.V_th) (hV : V ≤ p.V_th) :
    V + LIFModel.dvdt p V c * dtq ≤ p.V_th := by
  have hA : 0 < p.R_m * p.C_m := mul_pos hRm hCm
  have key : LIFModel.dvdt p V c
      = (p.E_L - V + p.R_m * c) / (p.R_m * p.C_m) := by
    rw [LIFModel.dvdt]
    field_simp
    ring
  have h2 : (p.E_L - V + p.R_m * c) * dtq / (p.R_m * p.C_m)
      ≤ p.V_th - V := by
    rw [div_le_iff₀ hA]
    nlinarith [mul_nonneg (sub_nonneg.mpr hV) (sub_nonneg.mpr hdtm),
               mul_nonneg (sub_nonneg.mpr hVstar) hdt0]
  rw [key, div_mul_eq_mul_div]
  linarith

/-- With zero noise and a sub-threshold constant current, every entry of
the LIF recurrence stays at or below the threshold (provided `E_L ≤ V_th`
and the timestep stability bound holds). -/
theorem lifVrec_le_subth (p : NeuronParameters) (dtq c : ℚ) (nz : ℕ → ℚ)
    (hnz : ∀ i, nz i = 0)
    (hRm : 0 < p.R_m) (hCm : 0 < p.C_m) (hdt0 : 0 ≤ dtq)
    (hdtm : dtq ≤ p.R_m * p.C_m) (hEL : p.E_L ≤ p.V_th)
    (hVstar : p.E_L + p.R_m * c ≤ p.V_th) :
    ∀ j, lifVrec p dtq (fun _ => c) nz j ≤ p.V_th := by
  intro j
  induction j with
  | zero => simpa [lifVrec] using hEL
  | succ j ih =>
    rw [lifVrec_succ]
    have hprop : lifProposed p dtq (fun _ => c) nz (j + 1) ≤ p.V_th := by
      rw [lifProposed]
      simp only [Nat.add_sub_cancel, hnz, add_zero]
      exact lif_euler_le p dtq c _ hRm hCm hdt0 hdtm hVstar ih
    rw [if_neg (not_lt.mpr hprop)]
    exact hprop

/-- Under the hypotheses of `lifVrec_le_subth` no proposed LIF voltage
exceeds the threshold. -/
theorem lifProposed_le_subth (p : NeuronParameters) (dtq c : ℚ)
    (nz : ℕ → ℚ) (hnz : ∀ i, nz i = 0)
    (hRm : 0 < p.R_m) (hCm : 0 < p.C_m) (hdt0 : 0 ≤ dtq)
    (hdtm : dtq ≤ p.R_m * p.C_m) (hEL : p.E_L ≤ p.V_th)
    (hVstar : p.E_L + p.R_m * c ≤ p.V_th) :
    ∀ i, lifProposed p dtq (fun _ => c) nz i ≤ p.V_th := by
  intro i
  rw [lifProposed]
  simp only [hnz, add_zero]
  exact lif_euler_le p dtq c _ hRm hCm hdt0 hdtm hVstar
    (lifVrec_le_subth p dtq c nz hnz hRm hCm hdt0 hdtm hEL hVstar (i - 1))

/-- The spike counter after one LIF iteration, as a function of the
proposed voltage. -/
theorem LIFModel.stepBody_num_fire (s : LIFModel) (i : ℕ) :
    (LIFModel.stepBody s i).num_fire =
      if s.V (i - 1) +
          LIFModel.dvdt s.neuron_parameters (s.V (i - 1)) (s.I (i - 1))
            * s.dt + s.noises i > s.neuron_parameters.V_th
      then s.num_fire + 1 else s.num_fire := by
  simp only [LIFModel.stepBody]
  split <;> rfl

/-- If no proposed voltage along the loop exceeds the threshold, the spike
counter never moves. -/
theorem LIFModel.loop_num_fire_no_fire (s : LIFModel)
    (h0 : s.V 0 = s.neuron_parameters.E_L) (k : ℕ)
    (hno : ∀ i, 1 ≤ i → i ≤ k →
      ¬ lifProposed s.neuron_parameters s.dt s.I s.noises i
          > s.neuron_parameters.V_th) :
    (LIFModel.loop s k).num_fire = s.num_fire := by
  induction k with
  | zero => rfl
  | succ k ih =>
    rw [LIFModel.loop, LIFModel.stepBody_num_fire]
    have hVk := LIFModel.loop_V_eq s h0 k k le_rfl
    rw [LIFModel.loop_neuron_parameters, LIFModel.loop_I, LIFModel.loop_dt,
        LIFModel.loop_noises, Nat.add_sub_cancel, hVk]
    have hcon : ¬ lifVrec s.neuron_parameters s.dt s.I s.noises k +
        LIFModel.dvdt s.neuron_parameters
          (lifVrec s.neuron_parameters s.dt s.I s.noises k) (s.I k) * s.dt +
        s.noises (k + 1) > s.neuron_parameters.V_th := by
      have h := hno (k + 1) (by omega) le_rfl
      rw [lifProposed, Nat.add_sub_cancel] at h
      exact h
    rw [if_neg hcon]
    exact ih (fun i h1 h2 => hno i h1 (by omega))

/-- C5 (amended): for a LIF model with zero noise amplitude and a constant
sub-threshold current `c < I_th`, and additionally `R_m > 0`, `C_m > 0`,
`E_L ≤ V_th` and a timestep with `0 ≤ dt ≤ R_m*C_m` (forward-Euler
stability), `simulate` ends with `num_fire = 0`.  (The extra positivity,
ordering and stability hypotheses are forced: see the counterexample.) -/
theorem C5_subthreshold_no_fire
    (p : NeuronParameters) (times : ℕ → ℚ) (N : ℕ) (I : ℕ → ℚ) (c : ℚ)
    (draws : ℕ → ℚ) (sqrtDt : ℚ)
    (hRm : 0 < p.R_m) (hCm : 0 < p.C_m)
    (hdt0 : 0 ≤ times 1 - times 0)
    (hdtm : times 1 - times 0 ≤ p.R_m * p.C_m)
    (hEL : p.E_L ≤ p.V_th)
    (hGL : p.G_L = 1 / p.R_m)
    (hIth : p.I_th = p.G_L * (p.V_th - p.E_L))
    (hc : c < p.I_th) (hI : I = fun _ => c) :
    (LIFModel.simulate (LIFModel.mk0 p times N I 0 draws sqrtDt)).num_fire
      = 0 := by
  subst hI
  have hVstar : p.E_L + p.R_m * c ≤ p.V_th := by
    have h1 : p.I_th = (p.V_th - p.E_L) / p.R_m := by
      rw [hIth, hGL]
      ring
    rw [h1] at hc
    have h2 := (lt_div_iff₀ hRm).mp hc
    nlinarith
  set s0 := LIFModel.mk0 p times N (fun _ => c) 0 draws sqrtDt with hs0
  have h0 : s0.V 0 = s0.neuron_parameters.E_L := by
    simp [hs0, LIFModel.mk0]
  have hnz : ∀ i, s0.noises i = 0 := by
    intro i
    show draws i * 0 * sqrtDt = 0
    ring
  have hno : ∀ i, 1 ≤ i → i ≤ s0.N - 1 →
      ¬ lifProposed s0.neuron_parameters s0.dt s0.I s0.noises i
          > s0.neuron_parameters.V_th := by
    intro i _ _
    exact not_lt.mpr (lifProposed_le_subth p (times 1 - times 0) c
      s0.noises hnz hRm hCm hdt0 hdtm hEL hVstar i)
  rw [LIFModel.simulate, LIFModel.loop_num_fire_no_fire s0 h0 _ hno]
  rfl

/-- Counterexample to C5 as stated: with `E_L = 0 > V_th = -1`,
`R_m = C_m = 1`, timestep `1/10`, zero noise and constant current
`c = -2 < I_th = -1`, the very first Euler step lands at `-1/5 > V_th`, so
the neuron fires once: `num_fire = 1 ≠ 0`. -/
theorem C5_subthreshold_no_fire_counterexample :
    pSuper.G_L = 1 / pSuper.R_m ∧
    pSuper.I_th = pSuper.G_L * (pSuper.V_th - pSuper.E_L) ∧
    (-2 : ℚ) < pSuper.I_th ∧
    (LIFModel.simulate (LIFModel.mk0 pSuper
       (fun i => (i : ℚ) / 10) 2 (fun _ => -2) 0 (fun _ => 0) 0)).num_fire
      = 1 := by
  refine ⟨by norm_num [pSuper], by norm_num [pSuper],
    by norm_num [pSuper], ?_⟩
  have hred : LIFModel.simulate (LIFModel.mk0 pSuper
      (fun i => (i : ℚ) / 10) 2 (fun _ => -2) 0 (fun _ => 0) 0)
      = LIFModel.stepBody (LIFModel.mk0 pSuper
      (fun i => (i : ℚ) / 10) 2 (fun _ => -2) 0 (fun _ => 0) 0) 1 := rfl
  rw [hred, LIFModel.stepBody]
  norm_num [LIFModel.mk0, LIFModel.dvdt, pSuper, Function.update_same]

/-- Witness for the amended C5 at a concrete sub-threshold model. -/
theorem C5_subthreshold_no_fire_witness :
    (0 : ℚ) < pSub.I_th ∧
    (LIFModel.simulate (LIFModel.mk0 pSub
       (fun i => (i : ℚ)) 2 (fun _ => 0) 0 (fun _ => 0) 0)).num_fire
      = 0 :=
  ⟨by norm_num [pSub],
   C5_subthreshold_no_fire pSub
     (fun i => (i : ℚ)) 2 (fun _ => 0) 0 (fun _ => 0) 0
     (by norm_num [pSub]) (by norm_num [pSub]) (by norm_num)
     (by norm_num [pSub]) (by norm_num [pSub]) (by norm_num [pSub])
     (by norm_num [pSub]) (by norm_num [pSub]) rfl⟩

/-! ### List helpers for the utils.py theorems -/

theorem list_map_range_getD (arr : List ℚ) :
    (List.range arr.length).map (fun j => arr.getD j 0) = arr := by
  apply List.ext_getElem
  · simp
  · intro n h1 h2
    simp only [List.getElem_map, List.getElem_range]
    exact List.getD_eq_getElem arr 0 h2

theorem slice_length (arr : List ℚ) (a m : ℕ) (hm : a + m ≤ arr.length) :
    ((arr.drop a).take m).length = m := by
  simp only [List.length_take, List.length_drop]
  omega

theorem slice_getD (arr : List ℚ) (a m j : ℕ) (hj : j < m)
    (hm : a + m ≤ arr.length) :
    ((arr.drop a).take m).getD j 0 = arr.getD (a + j) 0 := by
  have hlen : ((arr.drop a).take m).length = m := slice_length arr a m hm
  have hj1 : j < ((arr.drop a).take m).length := by omega
  have hja : a + j < arr.length := by omega
  rw [List.getD_eq_getElem _ 0 hj1, List.getD_eq_getElem _ 0 hja]
  rw [List.getElem_take, List.getElem_drop]

theorem flatten_slices (w : ℕ) : ∀ (arr : List ℚ) (m : ℕ),
    arr.length = w * m →
    ((List.range w).map fun k => (arr.drop (k * m)).take m).flatten
      = arr := by
  induction w with
  | zero =>
    intro arr m h
    simp only [Nat.zero_mul] at h
    simp [List.length_eq_zero.mp h]
  | succ w ih =>
    intro arr m h
    rw [List.range_succ_eq_map, List.map_cons, List.flatten_cons,
        List.map_map]
    have hmap : (List.range w).map
          ((fun k => (arr.drop (k * m)).take m) ∘ Nat.succ)
        = (List.range w).map
          (fun k => ((arr.drop m).drop (k * m)).take m) := by
      apply List.map_congr_left
      intro k _
      show (arr.drop ((k + 1) * m)).take m = _
      rw [List.drop_drop]
      congr 1
      rw [Nat.succ_mul, Nat.add_comm]
    rw [hmap]
    have hlen : (arr.drop m).length = w * m := by
      rw [List.length_drop, h, Nat.succ_mul]
      omega
    rw [ih (arr.drop m) m hlen]
    simp only [Nat.zero_mul, List.drop_zero]
    exact List.take_append_drop m arr

theorem slice_bound (k sf m len : ℕ) (hks : k < sf)
    (hlen : sf * m = len) : k * m + m ≤ len := by
  have h1 : k * m + m = (k + 1) * m := (Nat.succ_mul k m).symm
  have h2 : (k + 1) * m ≤ sf * m := Nat.mul_le_mul_right m (by omega)
  omega

theorem npSplit_some (arr : List ℚ) (sf : ℕ) (h1 : sf ≠ 0)
    (h2 : arr.length % sf = 0) :
    npSplit arr sf = some ((List.range sf).map fun k =>
      (arr.drop (k * (arr.length / sf))).take (arr.length / sf)) := by
  rw [npSplit, if_neg h1, if_neg (by simpa using h2)]

/-- C7: `expand_bins` applied with `new_dt = old_dt` (and a nonzero
timestep — with `old_dt = 0` the Python division itself raises) is the
identity transform. -/
theorem C7_expand_bins_identity (arr : List ℚ) (old_dt : ℚ)
    (h : old_dt ≠ 0) :
    expand_bins arr old_dt old_dt = some arr := by
  have h2 : (pyInt (old_dt / old_dt)).toNat = 1 := by
    rw [div_self h]
    norm_num [pyInt]
  rw [expand_bins, h2, npSplit_some arr 1 one_ne_zero (Nat.mod_one _)]
  show some (npMeanAxis0 _) = _
  have hr1 : List.range 1 = [0] := rfl
  rw [hr1]
  simp only [List.map_cons, List.map_nil, Nat.div_one, Nat.zero_mul,
    List.drop_zero, List.take_length]
  show some ((List.range arr.length).map _) = _
  simp only [List.map_cons, List.map_nil, List.sum_cons, List.sum_nil,
    add_zero, List.length_cons, List.length_nil, Nat.zero_add,
    Nat.cast_one, div_one]
  rw [list_map_range_getD]

/-- Witness for C7: a two-element array with `new_dt = old_dt = 2`. -/
theorem C7_expand_bins_identity_witness :
    (2 : ℚ) ≠ 0 ∧ expand_bins [3, 5] 2 2 = some [3, 5] :=
  ⟨by norm_num, C7_expand_bins_identity [3, 5] 2 (by norm_num)⟩

theorem npMeanAxis0_cons (r0 : List ℚ) (rest : List (List ℚ)) :
    npMeanAxis0 (r0 :: rest) = (List.range r0.length).map fun j =>
      (((r0 :: rest).map fun r => r.getD j 0).sum)
        / (r0 :: rest).length := rfl

theorem npMeanAxis0_eq_of (rows : List (List ℚ)) (L : ℕ)
    (hne : rows ≠ []) (hL : ∀ r ∈ rows, r.length = L) :
    npMeanAxis0 rows = (List.range L).map fun j =>
      ((rows.map fun r => r.getD j 0).sum) / rows.length := by
  cases rows with
  | nil => exact absurd rfl hne
  | cons r0 rest =>
    rw [npMeanAxis0_cons, hL r0 (List.mem_cons_self _ _)]

/-- C3 (amended): for `sf = int(new_dt/old_dt) ≥ 1` evenly dividing the
array length, `expand_bins` splits the array into `sf` equal contiguous
segments but then averages across the segments positionwise: the result
has length `len/sf`, its `j`-th entry being the mean over the `sf`
segments of their `j`-th elements (not one mean per segment). -/
theorem C3_expand_bins_amended (arr : List ℚ) (new_dt old_dt : ℚ)
    (sf : ℕ) (hsf : (pyInt (new_dt / old_dt)).toNat = sf) (h1 : 1 ≤ sf)
    (hdvd : sf ∣ arr.length) :
    expand_bins arr new_dt old_dt
      = some ((List.range (arr.length / sf)).map fun j =>
          ((List.range sf).map fun k =>
            arr.getD (k * (arr.length / sf) + j) 0).sum / sf) := by
  have hsf0 : sf ≠ 0 := by omega
  have hmod : arr.length % sf = 0 := Nat.dvd_iff_mod_eq_zero.mp hdvd
  set m := arr.length / sf with hm
  have hlen : sf * m = arr.length := Nat.mul_div_cancel' hdvd
  rw [expand_bins, hsf, npSplit_some arr sf hsf0 hmod]
  have hrl : ((List.range sf).map fun k =>
      (arr.drop (k * m)).take m).length = sf := by simp
  have hne : ((List.range sf).map fun k =>
      (arr.drop (k * m)).take m) ≠ [] := by
    rw [← List.length_pos, hrl]
    omega
  have hL : ∀ r ∈ (List.range sf).map fun k =>
      (arr.drop (k * m)).take m, r.length = m := by
    intro r hr
    obtain ⟨k, hk, rfl⟩ := List.mem_map.mp hr
    have hks : k < sf := List.mem_range.mp hk
    exact slice_length arr (k * m) m (slice_bound k sf m arr.length hks hlen)
  show some (npMeanAxis0 _) = _
  rw [npMeanAxis0_eq_of _ m hne hL, hrl]
  congr 1
  apply List.map_congr_left
  intro j hj
  have hjm : j < m := List.mem_range.mp hj
  rw [List.map_map]
  congr 2
  apply List.map_congr_left
  intro k hk
  have hks : k < sf := List.mem_range.mp hk
  show ((arr.drop (k * m)).take m).getD j 0 = _
  exact slice_getD arr (k * m) m j hjm
    (slice_bound k sf m arr.length hks hlen)

/-- Counterexample to C3 as stated: on `[0,0,1,1]` with `new_dt/old_dt = 2`
the claimed per-segment means are `[0, 1]`, but `expand_bins` returns
`[1/2, 1/2]` (the positionwise mean across the two segments). -/
theorem C3_expand_bins_counterexample :
    expand_bins [0, 0, 1, 1] 2 1 = some [1/2, 1/2] ∧
    expandBinsClaimed [0, 0, 1, 1] 2 1 = some [0, 1] ∧
    expand_bins [0, 0, 1, 1] 2 1 ≠ expandBinsClaimed [0, 0, 1, 1] 2 1 := by
  have hp : (pyInt ((2 : ℚ) / 1)).toNat = 2 := by norm_num [pyInt]; rfl
  have hsplit : npSplit [0, 0, 1, 1] 2 = some [[0, 0], [1, 1]] := by
    rw [npSplit_some _ 2 (by norm_num) (by norm_num)]
    rfl
  have e1 : expand_bins [0, 0, 1, 1] 2 1 = some [1/2, 1/2] := by
    rw [expand_bins, hp, hsplit]
    show some (npMeanAxis0 [[0, 0], [1, 1]]) = _
    rw [npMeanAxis0_cons]
    norm_num [List.range_succ]
  have e2 : expandBinsClaimed [0, 0, 1, 1] 2 1 = some [0, 1] := by
    rw [expandBinsClaimed, hp, hsplit]
    show some ([[(0 : ℚ), 0], [1, 1]].map npMean) = _
    norm_num [npMean]
  refine ⟨e1, e2, ?_⟩
  rw [e1, e2]
  intro h
  have := Option.some.inj h
  simp at this

/-- Witness for the amended C3 on `[0,0,1,1]` with `sf = 2`. -/
theorem C3_expand_bins_amended_witness :
    (pyInt ((2 : ℚ) / 1)).toNat = 2 ∧ 1 ≤ 2 ∧
      (2 ∣ ([0, 0, 1, 1] : List ℚ).length) ∧
    expand_bins [0, 0, 1, 1] 2 1
      = some ((List.range (([0, 0, 1, 1] : List ℚ).length / 2)).map fun j =>
          ((List.range 2).map fun k =>
            ([0, 0, 1, 1] : List ℚ).getD
              (k * (([0, 0, 1, 1] : List ℚ).length / 2) + j) 0).sum / 2) :=
  ⟨by norm_num [pyInt]; rfl, by norm_num, by norm_num,
   C3_expand_bins_amended [0, 0, 1, 1] 2 1 2 (by norm_num [pyInt]; rfl)
     (by norm_num) (by norm_num)⟩

/-- C4: for window count `w = int(time_range/dt) ≥ 1`, `find_fano_factor`
returns an absent result exactly when `w` does not divide the array
length; otherwise it partitions the array into `w` equal contiguous
windows (their concatenation restores the array), counts spikes per
window, and returns the variance of the counts divided by their mean. -/
theorem C4_fano_factor (time_range dt : ℚ) (spike_locations : List ℚ)
    (w : ℕ) (hw : (pyInt (time_range / dt)).toNat = w) (hw1 : 1 ≤ w) :
    (find_fano_factor time_range spike_locations dt = none ↔
      ¬ w ∣ spike_locations.length) ∧
    (w ∣ spike_locations.length →
      ∃ windows, npSplit spike_locations w = some windows ∧
        windows.length = w ∧
        (∀ r ∈ windows, r.length = spike_locations.length / w) ∧
        windows.flatten = spike_locations ∧
        find_fano_factor time_range spike_locations dt
          = some (npVar (windows.map List.sum)
              / npMean (windows.map List.sum))) := by
  have hw0 : w ≠ 0 := by omega
  have hmain : ∀ hmod : spike_locations.length % w = 0,
      find_fano_factor time_range spike_locations dt
        = some (npVar (((List.range w).map fun k =>
              (spike_locations.drop
                (k * (spike_locations.length / w))).take
                (spike_locations.length / w)).map List.sum)
            / npMean (((List.range w).map fun k =>
              (spike_locations.drop
                (k * (spike_locations.length / w))).take
                (spike_locations.length / w)).map List.sum)) := by
    intro hmod
    simp only [find_fano_factor, hw]
    rw [if_neg hw0, if_neg (by simpa using hmod),
      npSplit_some _ _ hw0 hmod]
  constructor
  · by_cases hd : w ∣ spike_locations.length
    · have hmod : spike_locations.length % w = 0 :=
        Nat.dvd_iff_mod_eq_zero.mp hd
      rw [hmain hmod]
      simp [hd]
    · have hmod : spike_locations.length % w ≠ 0 := fun h =>
        hd (Nat.dvd_iff_mod_eq_zero.mpr h)
      simp only [find_fano_factor, hw]
      rw [if_neg hw0, if_pos (by simpa using hmod)]
      simp [hd]
  · intro hd
    have hmod : spike_locations.length % w = 0 :=
      Nat.dvd_iff_mod_eq_zero.mp hd
    have hlen : w * (spike_locations.length / w) = spike_locations.length :=
      Nat.mul_div_cancel' hd
    refine ⟨(List.range w).map fun k =>
        (spike_locations.drop (k * (spike_locations.length / w))).take
          (spike_locations.length / w),
      npSplit_some _ _ hw0 hmod, by simp, ?_, ?_, hmain hmod⟩
    · intro r hr
      obtain ⟨k, hk, rfl⟩ := List.mem_map.mp hr
      have hks : k < w := List.mem_range.mp hk
      exact slice_length _ _ _
        (slice_bound k w (spike_locations.length / w)
          spike_locations.length hks hlen)
    · exact flatten_slices w spike_locations
        (spike_locations.length / w) hlen.symm

/-- Witness for C4 with `time_range = 2`, `dt = 1`, four spike samples. -/
theorem C4_fano_factor_witness :
    (pyInt ((2 : ℚ) / 1)).toNat = 2 ∧ 1 ≤ 2 ∧
    (find_fano_factor 2 [1, 0, 1, 1] 1 = none ↔
      ¬ (2 ∣ ([1, 0, 1, 1] : List ℚ).length)) :=
  ⟨by norm_num [pyInt]; rfl, by norm_num,
   (C4_fano_factor 2 1 [1, 0, 1, 1] 2 (by norm_num [pyInt]; rfl)
     (by norm_num)).1⟩

/-- Counterexample to C8 as stated: `LIFModel` does not define a method
named `dVdt` (its derivative method is the differently-named `dvdt`), so
calling `dVdt` on a concrete `LIFModel` instance resolves to the base
class's implementation and still fails with `NotImplementedError` instead
of computing the derivative. -/
theorem C8_dVdt_counterexample :
    definesMethod PyClass.LIFModel "dVdt" = false ∧
    resolveMethod PyClass.LIFModel "dVdt" = some PyClass.BaseNeuronModel ∧
    BaseNeuronModel.dVdt 0 = Except.error "NotImplementedError" :=
  ⟨rfl, rfl, rfl⟩

/-- C8 (amended): calling `dVdt` or `simulate` on the abstract base type
fails with a `NotImplementedError`; both concrete models override
`simulate`, and each defines its own derivative method — named `dvdt`,
taking the previous voltage and current rather than a step index — which
computes that model's instantaneous voltage derivative; the base method
`dVdt` itself is not overridden and still resolves to the base class (and
hence fails) even on the concrete models. -/
theorem C8_not_implemented_amended :
    (∀ step : ℕ, BaseNeuronModel.dVdt step
      = Except.error "NotImplementedError") ∧
    BaseNeuronModel.simulate = Except.error "NotImplementedError" ∧
    resolveMethod PyClass.BaseNeuronModel "dVdt"
      = some PyClass.BaseNeuronModel ∧
    resolveMethod PyClass.BaseNeuronModel "simulate"
      = some PyClass.BaseNeuronModel ∧
    resolveMethod PyClass.LIFModel "simulate" = some PyClass.LIFModel ∧
    resolveMethod PyClass.AELIFModel "simulate"
      = some PyClass.AELIFModel ∧
    resolveMethod PyClass.LIFModel "dvdt" = some PyClass.LIFModel ∧
    resolveMethod PyClass.AELIFModel "dvdt" = some PyClass.AELIFModel ∧
    resolveMethod PyClass.LIFModel "dVdt"
      = some PyClass.BaseNeuronModel ∧
    resolveMethod PyClass.AELIFModel "dVdt"
      = some PyClass.BaseNeuronModel ∧
    (∀ (p : NeuronParameters) (V_m I_app : ℚ),
      LIFModel.dvdt p V_m I_app
        = ((p.E_L - V_m) / p.R_m + I_app) / p.C_m) ∧
    (∀ (p : NeuronParameters) (rexp : ℚ → ℚ) (V_m I_app I_SRA : ℚ),
      AELIFModel.dvdt p rexp V_m I_app I_SRA
        = (p.G_L * (p.E_L - V_m + optQ p.Delta_th *
            rexp ((V_m - p.V_th) / optQ p.Delta_th)) - I_SRA + I_app)
          / p.C_m) :=
  ⟨fun _ => rfl, rfl, rfl, rfl, rfl, rfl, rfl, rfl, rfl, rfl,
   fun _ _ _ => rfl, fun _ _ _ _ _ => rfl⟩

/-- C9: `NeuronParameters` construction computes `G_L = 1/R_m`,
`tau_m = C_m/G_L` and `I_th = G_L*(V_th - E_L)` at construction time, and
fails (the division `1.0/R_m` raising an arithmetic fault) exactly when
`R_m = 0`. -/
theorem C9_parameters_construction
    (C_m E_L E_K R_m V_th V_reset : ℚ)
    (V_peak tau_vc tau_vth V_th_max tau_G_ref G_SRA Delta_G_SRA tau_SRA
      V_max Delta_th a b : Option ℚ) :
    (mkNeuronParameters C_m E_L E_K R_m V_th V_reset V_peak tau_vc
        tau_vth V_th_max tau_G_ref G_SRA Delta_G_SRA tau_SRA V_max
        Delta_th a b = none ↔ R_m = 0) ∧
    (R_m ≠ 0 →
      mkNeuronParameters C_m E_L E_K R_m V_th V_reset V_peak tau_vc
        tau_vth V_th_max tau_G_ref G_SRA Delta_G_SRA tau_SRA V_max
        Delta_th a b
      = some { C_m := C_m, E_L := E_L, E_K := E_K, R_m := R_m,
               V_th := V_th, V_reset := V_reset, V_peak := V_peak,
               tau_vc := tau_vc, tau_vth := tau_vth,
               V_th_max := V_th_max, tau_G_ref := tau_G_ref,
               G_SRA := G_SRA, Delta_G_SRA := Delta_G_SRA,
               tau_SRA := tau_SRA, V_max := V_max, Delta_th := Delta_th,
               a := a, b := b, G_L := 1 / R_m,
               tau_m := C_m / (1 / R_m),
               I_th := 1 / R_m * (V_th - E_L) }) := by
  constructor
  · constructor
    · intro h
      by_contra hR
      simp [mkNeuronParameters, hR] at h
    · intro h
      simp [mkNeuronParameters, h]
  · intro hR
    simp [mkNeuronParameters, hR]

/-- Witness for C9 at `R_m = 2` (construction succeeds and the derived
fields are as computed). -/
theorem C9_parameters_construction_witness :
    (2 : ℚ) ≠ 0 ∧
    mkNeuronParameters 1 0 0 2 3 0 none none none none none none none
        none none none none none
      = some { C_m := 1, E_L := 0, E_K := 0, R_m := 2, V_th := 3,
               V_reset := 0, G_L := 1 / 2, tau_m := 1 / (1 / 2),
               I_th := 1 / 2 * (3 - 0) } :=
  ⟨by norm_num,
   (C9_parameters_construction 1 0 0 2 3 0 none none none none none none
      none none none none none none).2 (by norm_num)⟩

end SynapseFlow
